import Mathlib

/-!
Verification of the branch-repair driver `finish_remaining_prs.py`.

The script is a linear sequence of shell invocations whose control flow
depends only on the boolean success of each command and on the stdout of
one `git log` query.  We embed it as a deterministic function from an
*environment* (the outcome the operating system would return for the
n-th command issued) to the trace of issued commands plus an exit code.

Python's `subprocess.run(cmd, ..., timeout=30)` is modelled by recording
the command together with its timeout limit; a command whose runtime
exceeds the limit raises `TimeoutExpired`, which `run_cmd` catches and
maps to `False`.  The `git log` query at line 46 is invoked directly via
`subprocess.run` WITHOUT a timeout, so it always completes and its full
result object is inspected.  `commit.split()[0]` on an empty token list
would raise `IndexError`, which nothing catches; this is modelled by the
`Except PyError` layer threaded through the driver.
-/

namespace FinishRemainingPRs

/-- Result object of one external command, as the OS would produce it:
exit code, captured stdout/stderr, and how long the command would run
if not killed (used to decide whether a 30-unit timeout fires). -/
structure CmdOutcome where
  returncode : Int
  stdout : String
  stderr : String
  runtime : Nat
  deriving Repr, DecidableEq

/-- The environment assigns an outcome to the n-th command issued. -/
def Env : Type := Nat → CmdOutcome

/-- One issued command: its shell text and the timeout limit passed to
`subprocess.run` (`some 30` for every `run_cmd` call, `none` for the
direct `git log` invocation at line 46). -/
structure Event where
  cmd : String
  limit : Option Nat
  deriving Repr, DecidableEq

/-- Ephemeral driver state: how many commands have been issued so far
(index into the environment) and the trace of issued commands. -/
structure DriverState where
  idx : Nat
  trace : List Event
  deriving Repr, DecidableEq

/-- `run_cmd` (lines 7-19): returns `result.returncode == 0`, except that
a `TimeoutExpired` (runtime beyond the 30-unit limit) yields `False`. -/
def cmdOk (o : CmdOutcome) : Bool :=
  if 30 < o.runtime then false else o.returncode == 0

/-- Issue a command through `run_cmd`: timeout limit 30, boolean result. -/
def runCmd (env : Env) (s : DriverState) (c : String) : Bool × DriverState :=
  (cmdOk (env s.idx), ⟨s.idx + 1, s.trace ++ [⟨c, some 30⟩]⟩)

/-- Issue a command through a bare `subprocess.run` with no timeout
(line 46): the full result object is returned. -/
def runDirect (env : Env) (s : DriverState) (c : String) : CmdOutcome × DriverState :=
  (env s.idx, ⟨s.idx + 1, s.trace ++ [⟨c, none⟩]⟩)

/-- Python exceptions that the embedded fragment could raise. -/
inductive PyError where
  | indexError
  deriving Repr, DecidableEq

/-- Decidable equality of fallible results, for concrete evaluation. -/
instance instDecEqExcept {ε α : Type} [DecidableEq ε] [DecidableEq α] :
    DecidableEq (Except ε α)
  | .error e, .error e' =>
    if h : e = e' then .isTrue (by rw [h])
    else .isFalse (fun hh => h (Except.error.inj hh))
  | .error _, .ok _ => .isFalse (fun hh => Except.noConfusion hh)
  | .ok _, .error _ => .isFalse (fun hh => Except.noConfusion hh)
  | .ok a, .ok a' =>
    if h : a = a' then .isTrue (by rw [h])
    else .isFalse (fun hh => h (Except.ok.inj hh))

/-! ### String helpers mirroring the Python string operations -/

/-- `Char`-list version of Python's substring test `pat in s`:
does `pat` occur at the head of `s`? -/
def isPrefixChars : List Char → List Char → Bool
  | [], _ => true
  | _ :: _, [] => false
  | p :: ps, c :: cs => p == c && isPrefixChars ps cs

/-- Python's `pat in s`: `pat` occurs contiguously somewhere in `s`. -/
def containsChars (pat : List Char) : List Char → Bool
  | [] => isPrefixChars pat []
  | c :: cs => isPrefixChars pat (c :: cs) || containsChars pat cs

/-- Python's `s.lower()`, character by character. -/
def lowerChars (s : String) : List Char := s.toList.map Char.toLower

/-- Accumulator-based tokenizer implementing Python's `s.split()`:
split on runs of whitespace, dropping empty tokens. -/
def pyTokensAux : List Char → List Char → List (List Char)
  | [], acc => if acc.isEmpty then [] else [acc.reverse]
  | c :: cs, acc =>
    if c.isWhitespace then
      if acc.isEmpty then pyTokensAux cs [] else acc.reverse :: pyTokensAux cs []
    else pyTokensAux cs (c :: acc)

/-- Python's `s.split()` (no separator argument). -/
def pyTokens (s : String) : List String :=
  (pyTokensAux s.toList []).map String.mk

/-- Python's `s.split('\n')`: cut at every newline, keeping empty
pieces (so the empty string yields `[""]`). -/
def splitNlAux : List Char → List Char → List String
  | [], acc => [String.mk acc.reverse]
  | c :: cs, acc =>
    if c = '\n' then String.mk acc.reverse :: splitNlAux cs []
    else splitNlAux cs (c :: acc)

/-- Python's `result.stdout.strip().split('\n')` (line 50): drop
leading and trailing whitespace, then split on newlines. -/
def pyStripSplit (s : String) : List String :=
  splitNlAux (((s.toList.dropWhile Char.isWhitespace).reverse.dropWhile
    Char.isWhitespace).reverse) []

/-! ### Commit selection (lines 56-61) -/

/-- `any(keyword in commit.lower() for keyword in ['test', 'feat:', 'add'])`.
The Python checks the ENTIRE log line (hash token included), lowered. -/
def keywordMatch (line : String) : Bool :=
  ["test", "feat:", "add"].any (fun kw => containsChars kw.toList (lowerChars line))

/-- `'cargo.lock' in commit.lower() or 'format' in commit.lower()`. -/
def excludedMatch (line : String) : Bool :=
  containsChars "cargo.lock".toList (lowerChars line) ||
    containsChars "format".toList (lowerChars line)

/-- The selection loop of lines 56-61: scan the lines in order; on the
first line matching the inclusion rule and not the exclusion rule,
return `commit.split()[0]` (raising `IndexError` if `split()` were
empty) and break; if no line matches, `test_commit` stays `None`. -/
def selectCommit : List String → Except PyError (Option String)
  | [] => .ok none
  | line :: rest =>
    if keywordMatch line && !excludedMatch line then
      match (pyTokens line).head? with
      | some t => .ok (some t)
      | none => .error .indexError
    else selectCommit rest

/-! ### Command strings issued by the driver -/

def cleanOf (b : String) : String := b ++ "-clean"

def cmdCheckoutMain : String := "git checkout main"

/-- Line 41: delete with failure suppressed by the shell. -/
def cmdDeleteCleanQuiet (clean : String) : String :=
  "git branch -D " ++ clean ++ " 2>/dev/null || true"

def cmdCheckoutNew (clean : String) : String := "git checkout -b " ++ clean

def cmdLog (b : String) : String := "git log --oneline origin/" ++ b ++ " | head -10"

def cmdCherryPick (t : String) : String := "git cherry-pick " ++ t

def cmdTheirs : String := "git checkout --theirs Cargo.lock || true"

def cmdAddLock : String := "git add Cargo.lock || true"

def cmdPickContinue : String := "git cherry-pick --continue"

def cmdPickAbort : String := "git cherry-pick --abort"

def cmdCheckoutBranch (b : String) : String := "git checkout " ++ b

def cmdResetHard (clean : String) : String := "git reset --hard " ++ clean

def cmdPush (b : String) : String := "git push --force origin " ++ b

/-- Line 95: bare delete of the clean branch (no shell suppression). -/
def cmdDeleteClean (clean : String) : String := "git branch -D " ++ clean

/-- An event issued through `run_cmd` (timeout 30). -/
def evt (c : String) : Event := ⟨c, some 30⟩

/-- An event issued through the bare `subprocess.run` (no timeout). -/
def evtDirect (c : String) : Event := ⟨c, none⟩

/-! ### The driver -/

/-- Publish and cleanup (lines 82-96): checkout the original branch,
hard-reset it to the clean branch, force-push, delete the clean branch,
return to main.  All outcomes ignored except for logging. -/
def publishPhase (env : Env) (b clean : String) (s : DriverState) : DriverState :=
  let (_, s) := runCmd env s (cmdCheckoutBranch b)
  let (_, s) := runCmd env s (cmdResetHard clean)
  let (_, s) := runCmd env s (cmdPush b)
  let (_, s) := runCmd env s (cmdDeleteClean clean)
  let (_, s) := runCmd env s cmdCheckoutMain
  s

/-- One iteration of the loop of lines 36-96 for a configured pair
`(branch_name, commit_hash)`.  Note `commit_hash` (`p.2`) is never
consulted.  A `continue` is modelled by returning the state without
the publish phase. -/
def processBranch (env : Env) (p : String × String) (s : DriverState) :
    Except PyError DriverState :=
  let b := p.1
  let clean := cleanOf b
  let (_, s) := runCmd env s (cmdDeleteCleanQuiet clean)
  let (_, s) := runCmd env s (cmdCheckoutNew clean)
  let (res, s) := runDirect env s (cmdLog b)
  if res.returncode == 0 then
    match selectCommit (pyStripSplit res.stdout) with
    | .error e => .error e
    | .ok none => .ok s
    | .ok (some t) =>
      let (ok1, s) := runCmd env s (cmdCherryPick t)
      if ok1 then .ok (publishPhase env b clean s)
      else
        let (_, s) := runCmd env s cmdTheirs
        let (_, s) := runCmd env s cmdAddLock
        let (ok2, s) := runCmd env s cmdPickContinue
        if ok2 then .ok (publishPhase env b clean s)
        else
          let (_, s) := runCmd env s cmdPickAbort
          .ok s
  else
    .ok (publishPhase env b clean s)

/-- The `for` loop over the configured pairs, propagating an uncaught
exception. -/
def repairLoop (env : Env) : List (String × String) → DriverState →
    Except PyError DriverState
  | [], s => .ok s
  | p :: ps, s =>
    match processBranch env p s with
    | .error e => .error e
    | .ok s' => repairLoop env ps s'

/-- The hardcoded branch table (lines 26-29). -/
def remainingBranches : List (String × String) :=
  [("feature/add-server-components-tests", "7c50378"),
   ("feature/add-integration-tests", "69f2d0a")]

/-- `main()` (lines 21-98), parametric in the configured branch table:
`git checkout main` once, then the loop.  Falling off the end of the
Python function yields process exit status 0; an uncaught exception
would escape.  (`os.chdir` and all `print` calls have no trace-relevant
effect and are not modelled.) -/
def mainDriver (env : Env) (configs : List (String × String)) :
    Except PyError (DriverState × Nat) :=
  let s0 : DriverState := ⟨0, []⟩
  let (_, s1) := runCmd env s0 cmdCheckoutMain
  match repairLoop env configs s1 with
  | .error e => .error e
  | .ok s => .ok (s, 0)

/-- The script as shipped: the driver on the hardcoded table. -/
def pyMain (env : Env) : Except PyError (DriverState × Nat) :=
  mainDriver env remainingBranches

/-- Trace of issued commands (empty if an exception escaped before any
observation matters; only used on runs proved exception-free). -/
def traceOf (r : Except PyError (DriverState × Nat)) : List Event :=
  match r with
  | .ok (s, _) => s.trace
  | .error _ => []

/-- Process exit status: 0 on normal completion, 1 for an uncaught
Python exception. -/
def exitCode (r : Except PyError (DriverState × Nat)) : Nat :=
  match r with
  | .ok (_, c) => c
  | .error _ => 1

/-! ### Derived event lists used to state the theorems -/

/-- The three events every branch iteration starts with. -/
def scanEvents (b : String) : List Event :=
  [evt (cmdDeleteCleanQuiet (cleanOf b)), evt (cmdCheckoutNew (cleanOf b)),
   evtDirect (cmdLog b)]

/-- The five publish/cleanup events, in issue order. -/
def publishEvents (b clean : String) : List Event :=
  [evt (cmdCheckoutBranch b), evt (cmdResetHard clean), evt (cmdPush b),
   evt (cmdDeleteClean clean), evt cmdCheckoutMain]

/-! ### Definitions written from the spec's words, for comparison -/

/-- Reading of a log line `<short-hash> <subject>`: the subject text is
everything after the first whitespace-separated token. -/
def subjectOf (line : String) : String :=
  String.intercalate " " ((pyTokens line).drop 1)

/-- The selection rule as the spec's sentence states it: the first line
whose SUBJECT text satisfies the keyword inclusion/exclusion rule, the
selected commit being that line's hash token. -/
def specSubjectSelect : List String → Option String
  | [] => none
  | line :: rest =>
    if keywordMatch (subjectOf line) && !excludedMatch (subjectOf line) then
      (pyTokens line).head?
    else specSubjectSelect rest

/-- The selection rule with the inclusion/exclusion test applied to the
FULL line (hash token included), which is what the code does. -/
def specLineSelect : List String → Option String
  | [] => none
  | line :: rest =>
    if keywordMatch line && !excludedMatch line then (pyTokens line).head?
    else specLineSelect rest

/-- Does the branch iteration starting at environment index `i` reach
the publish phase (as opposed to being abandoned by a `continue`)?
It does when the log query fails outright, or when a commit is selected
and the cherry-pick (or its continuation after the lockfile resolution)
succeeds. -/
def reachesPublish (env : Env) (i : Nat) : Bool :=
  if (env (i + 2)).returncode == 0 then
    match selectCommit (pyStripSplit (env (i + 2)).stdout) with
    | .ok (some _) => cmdOk (env (i + 3)) || cmdOk (env (i + 6))
    | _ => false
  else true

/-! ### Concrete environments used to instantiate the theorems -/

/-- Every command succeeds instantly; stdout holds a matching log line. -/
def envAllOk : Env := fun _ => ⟨0, "feat: x", "", 0⟩

/-- Every command fails with exit code 1. -/
def envFail : Env := fun _ => ⟨1, "", "", 0⟩

/-- Every command succeeds but the log output matches no keyword. -/
def envNoMatch : Env := fun _ => ⟨0, "nothing here", "", 0⟩

/-- The cherry-pick (4th command, index 3) fails; everything else
succeeds, so the lockfile resolution continuation succeeds. -/
def envC3 : Env := fun n => if n == 3 then ⟨1, "", "", 0⟩ else ⟨0, "feat: x", "", 0⟩

/-! ### Helper lemmas -/

/-- Associativity step used to fold chained `+ 1` indices. -/
theorem idxStep (n k : Nat) : n + k + 1 = n + (k + 1) := rfl

theorem isPrefixChars_head {p : Char} {ps l : List Char}
    (h : isPrefixChars (p :: ps) l = true) : ∃ l', l = p :: l' := by
  cases l with
  | nil => simp [isPrefixChars] at h
  | cons c cs =>
    simp only [isPrefixChars, Bool.and_eq_true, beq_iff_eq] at h
    exact ⟨cs, by rw [h.1]⟩

theorem containsChars_head_mem {p : Char} {ps : List Char} :
    ∀ {l : List Char}, containsChars (p :: ps) l = true → p ∈ l := by
  intro l
  induction l with
  | nil => intro h; simp [containsChars, isPrefixChars] at h
  | cons c cs ih =>
    intro h
    simp only [containsChars, Bool.or_eq_true] at h
    rcases h with h | h
    · obtain ⟨l', hl⟩ := isPrefixChars_head h
      injection hl with h1 _
      rw [h1]
      exact List.mem_cons_self _ _
    · exact List.mem_cons_of_mem _ (ih h)

/-- Lowercasing fixes whitespace characters. -/
theorem toLower_whitespace {c : Char} (h : c.isWhitespace = true) :
    Char.toLower c = c := by
  simp only [Char.isWhitespace, Bool.or_eq_true, decide_eq_true_eq] at h
  rcases h with ((h | h) | h) | h <;> subst h <;> decide

theorem nonws_of_toLower {c k : Char} (hk : Char.toLower c = k)
    (h : k.isWhitespace = false) : c.isWhitespace = false := by
  by_contra hc
  simp only [Bool.not_eq_false] at hc
  rw [toLower_whitespace hc] at hk
  rw [hk] at hc
  rw [hc] at h
  exact absurd h (by simp)

theorem contains_head_nonws {k : Char} {ks : List Char} {line : String}
    (h : containsChars (k :: ks) (lowerChars line) = true)
    (hk : k.isWhitespace = false) :
    ∃ c ∈ line.toList, c.isWhitespace = false := by
  have hm := containsChars_head_mem h
  simp only [lowerChars, List.mem_map] at hm
  obtain ⟨c, hc, hlc⟩ := hm
  exact ⟨c, hc, nonws_of_toLower hlc hk⟩

/-- A line matching the keyword rule contains a non-whitespace
character (each keyword starts with a letter). -/
theorem keyword_line_has_nonws {line : String} (h : keywordMatch line = true) :
    ∃ c ∈ line.toList, c.isWhitespace = false := by
  simp only [keywordMatch, List.any_eq_true] at h
  obtain ⟨kw, hkw, hc⟩ := h
  simp only [List.mem_cons, List.not_mem_nil, or_false] at hkw
  rcases hkw with rfl | rfl | rfl
  · exact contains_head_nonws
      (show containsChars ('t' :: ['e', 's', 't']) (lowerChars line) = true from hc)
      (by decide)
  · exact contains_head_nonws
      (show containsChars ('f' :: ['e', 'a', 't', ':']) (lowerChars line) = true from hc)
      (by decide)
  · exact contains_head_nonws
      (show containsChars ('a' :: ['d', 'd']) (lowerChars line) = true from hc)
      (by decide)

theorem pyTokensAux_ne_nil_acc (l : List Char) : ∀ acc : List Char, acc ≠ [] →
    pyTokensAux l acc ≠ [] := by
  induction l with
  | nil =>
    intro acc h
    cases acc with
    | nil => exact absurd rfl h
    | cons a as => simp [pyTokensAux]
  | cons c cs ih =>
    intro acc h
    simp only [pyTokensAux]
    by_cases hw : c.isWhitespace = true
    · cases acc with
      | nil => exact absurd rfl h
      | cons a as => simp [hw]
    · simp only [Bool.not_eq_true] at hw
      simp only [hw, Bool.false_eq_true, if_false]
      exact ih (c :: acc) (by simp)

/-- Python's `split()` of a list holding a non-whitespace character is
never empty. -/
theorem pyTokensAux_ne_nil (l : List Char) (h : ∃ c ∈ l, c.isWhitespace = false) :
    ∀ acc, pyTokensAux l acc ≠ [] := by
  induction l with
  | nil => simp at h
  | cons c cs ih =>
    intro acc
    obtain ⟨x, hx, hxw⟩ := h
    simp only [pyTokensAux]
    by_cases hw : c.isWhitespace = true
    · have hxcs : x ∈ cs := by
        rcases List.mem_cons.mp hx with rfl | hmem
        · rw [hw] at hxw; exact absurd hxw (by simp)
        · exact hmem
      have ih' := ih ⟨x, hxcs, hxw⟩
      cases acc with
      | nil => simpa [hw] using ih' []
      | cons a as => simp [hw]
    · simp only [Bool.not_eq_true] at hw
      simp only [hw, Bool.false_eq_true, if_false]
      exact pyTokensAux_ne_nil_acc cs (c :: acc) (by simp)

/-- A line matching the keyword rule splits into a non-empty token
list, so `commit.split()[0]` cannot raise. -/
theorem pyTokens_ne_nil {line : String} (h : keywordMatch line = true) :
    pyTokens line ≠ [] := by
  have haux := pyTokensAux_ne_nil line.toList (keyword_line_has_nonws h) []
  simp only [pyTokens, ne_eq, List.map_eq_nil_iff]
  exact haux

/-- The selection loop never raises `IndexError`. -/
theorem selectCommit_ok (commits : List String) :
    ∃ o, selectCommit commits = .ok o := by
  induction commits with
  | nil => exact ⟨none, rfl⟩
  | cons line rest ih =>
    by_cases h : (keywordMatch line && !excludedMatch line) = true
    · have hkw : keywordMatch line = true := by
        simp only [Bool.and_eq_true] at h
        exact h.1
      obtain ⟨t, ht⟩ : ∃ t, (pyTokens line).head? = some t := by
        cases htl : pyTokens line with
        | nil => exact absurd htl (pyTokens_ne_nil hkw)
        | cons a as => exact ⟨a, rfl⟩
      exact ⟨some t, by simp [selectCommit, h, ht]⟩
    · obtain ⟨o, ho⟩ := ih
      exact ⟨o, by simp only [selectCommit, h, Bool.false_eq_true, if_false]; exact ho⟩

/-! ### Shape of one branch iteration on each control path -/

/-- Log query fails: the publish phase still runs, with no cherry-pick. -/
theorem processBranch_logFail (env : Env) (p : String × String) (s : DriverState)
    (hlog : ((env (s.idx + 2)).returncode == 0) = false) :
    processBranch env p s =
      .ok ⟨s.idx + 8, s.trace ++ scanEvents p.1 ++ publishEvents p.1 (cleanOf p.1)⟩ := by
  simp only [processBranch, runCmd, runDirect, publishPhase, idxStep, Nat.reduceAdd]
  simp [hlog, scanEvents, publishEvents, evt, evtDirect]

/-- No commit matches: the iteration stops after the three scan events. -/
theorem processBranch_selNone (env : Env) (p : String × String) (s : DriverState)
    (hlog : ((env (s.idx + 2)).returncode == 0) = true)
    (hsel : selectCommit (pyStripSplit (env (s.idx + 2)).stdout) = Except.ok none) :
    processBranch env p s = .ok ⟨s.idx + 3, s.trace ++ scanEvents p.1⟩ := by
  simp only [processBranch, runCmd, runDirect, idxStep, Nat.reduceAdd]
  simp [hlog, hsel, scanEvents, evt, evtDirect]

/-- Cherry-pick succeeds outright: publish follows. -/
theorem processBranch_pickOk (env : Env) (p : String × String) (s : DriverState)
    (t : String)
    (hlog : ((env (s.idx + 2)).returncode == 0) = true)
    (hsel : selectCommit (pyStripSplit (env (s.idx + 2)).stdout) = Except.ok (some t))
    (hpick : cmdOk (env (s.idx + 3)) = true) :
    processBranch env p s = .ok ⟨s.idx + 9, s.trace ++ scanEvents p.1 ++
      [evt (cmdCherryPick t)] ++ publishEvents p.1 (cleanOf p.1)⟩ := by
  simp only [processBranch, runCmd, runDirect, publishPhase, idxStep, Nat.reduceAdd]
  simp [hlog, hsel, hpick, scanEvents, publishEvents, evt, evtDirect]

/-- Cherry-pick fails: the fixed lockfile resolution runs, then either
the continuation succeeds and publish follows, or the pick is aborted
and the iteration ends with no publish. -/
theorem processBranch_conflict (env : Env) (p : String × String) (s : DriverState)
    (t : String)
    (hlog : ((env (s.idx + 2)).returncode == 0) = true)
    (hsel : selectCommit (pyStripSplit (env (s.idx + 2)).stdout) = Except.ok (some t))
    (hpick : cmdOk (env (s.idx + 3)) = false) :
    processBranch env p s = .ok (if cmdOk (env (s.idx + 6)) then
      ⟨s.idx + 12, s.trace ++ scanEvents p.1 ++
        [evt (cmdCherryPick t), evt cmdTheirs, evt cmdAddLock, evt cmdPickContinue] ++
        publishEvents p.1 (cleanOf p.1)⟩
    else
      ⟨s.idx + 8, s.trace ++ scanEvents p.1 ++
        [evt (cmdCherryPick t), evt cmdTheirs, evt cmdAddLock, evt cmdPickContinue,
         evt cmdPickAbort]⟩) := by
  simp only [processBranch, runCmd, runDirect, publishPhase, idxStep, Nat.reduceAdd]
  by_cases hc : cmdOk (env (s.idx + 6)) = true
  · simp [hlog, hsel, hpick, hc, scanEvents, publishEvents, evt, evtDirect]
  · simp only [Bool.not_eq_true] at hc
    simp [hlog, hsel, hpick, hc, scanEvents, publishEvents, evt, evtDirect]

theorem mem_scanEvents {b : String} {e : Event} (h : e ∈ scanEvents b) :
    e.limit = some 30 ∨ (e.limit = none ∧ e.cmd = cmdLog b) := by
  simp only [scanEvents, List.mem_cons, List.not_mem_nil, or_false] at h
  rcases h with rfl | rfl | rfl
  · exact Or.inl rfl
  · exact Or.inl rfl
  · exact Or.inr ⟨rfl, rfl⟩

theorem mem_publishEvents {b clean : String} {e : Event}
    (h : e ∈ publishEvents b clean) : e.limit = some 30 := by
  simp only [publishEvents, List.mem_cons, List.not_mem_nil, or_false] at h
  rcases h with rfl | rfl | rfl | rfl | rfl <;> rfl

theorem mem_evt_cons {c : String} {rest : List Event} {e : Event}
    (h : e ∈ evt c :: rest) : e = evt c ∨ e ∈ rest := List.mem_cons.mp h

/-- Every branch iteration succeeds (no exception), only appends to the
trace, and every appended event either carries the 30-unit timeout or
is the bare log query. -/
theorem processBranch_cases (env : Env) (p : String × String) (s : DriverState) :
    ∃ s' tail, processBranch env p s = .ok s' ∧ s'.trace = s.trace ++ tail ∧
      ∀ e ∈ tail, e.limit = some 30 ∨ (e.limit = none ∧ e.cmd = cmdLog p.1) := by
  by_cases hlog : ((env (s.idx + 2)).returncode == 0) = true
  · obtain ⟨o, ho⟩ := selectCommit_ok (pyStripSplit (env (s.idx + 2)).stdout)
    cases o with
    | none =>
      refine ⟨_, scanEvents p.1, processBranch_selNone env p s hlog ho, rfl, ?_⟩
      intro e he
      exact mem_scanEvents he
    | some t =>
      by_cases hpick : cmdOk (env (s.idx + 3)) = true
      · refine ⟨_, scanEvents p.1 ++ [evt (cmdCherryPick t)] ++ publishEvents p.1 (cleanOf p.1),
          processBranch_pickOk env p s t hlog ho hpick, by simp [List.append_assoc], ?_⟩
        intro e he
        rcases List.mem_append.mp he with he | he
        · rcases List.mem_append.mp he with he | he
          · exact mem_scanEvents he
          · rcases List.mem_cons.mp he with rfl | he
            · exact Or.inl rfl
            · simp at he
        · exact Or.inl (mem_publishEvents he)
      · simp only [Bool.not_eq_true] at hpick
        have h := processBranch_conflict env p s t hlog ho hpick
        by_cases hc : cmdOk (env (s.idx + 6)) = true
        · rw [hc] at h
          simp only [if_true] at h
          refine ⟨_, scanEvents p.1 ++
            [evt (cmdCherryPick t), evt cmdTheirs, evt cmdAddLock, evt cmdPickContinue] ++
            publishEvents p.1 (cleanOf p.1), h, by simp [List.append_assoc], ?_⟩
          intro e he
          rcases List.mem_append.mp he with he | he
          · rcases List.mem_append.mp he with he | he
            · exact mem_scanEvents he
            · rcases List.mem_cons.mp he with rfl | he
              · exact Or.inl rfl
              · rcases List.mem_cons.mp he with rfl | he
                · exact Or.inl rfl
                · rcases List.mem_cons.mp he with rfl | he
                  · exact Or.inl rfl
                  · rcases List.mem_cons.mp he with rfl | he
                    · exact Or.inl rfl
                    · simp at he
          · exact Or.inl (mem_publishEvents he)
        · simp only [Bool.not_eq_true] at hc
          rw [hc] at h
          simp only [Bool.false_eq_true, if_false] at h
          refine ⟨_, scanEvents p.1 ++
            [evt (cmdCherryPick t), evt cmdTheirs, evt cmdAddLock, evt cmdPickContinue,
             evt cmdPickAbort], h, by simp [List.append_assoc], ?_⟩
          intro e he
          rcases List.mem_append.mp he with he | he
          · exact mem_scanEvents he
          · rcases List.mem_cons.mp he with rfl | he
            · exact Or.inl rfl
            · rcases List.mem_cons.mp he with rfl | he
              · exact Or.inl rfl
              · rcases List.mem_cons.mp he with rfl | he
                · exact Or.inl rfl
                · rcases List.mem_cons.mp he with rfl | he
                  · exact Or.inl rfl
                  · rcases List.mem_cons.mp he with rfl | he
                    · exact Or.inl rfl
                    · simp at he
  · simp only [Bool.not_eq_true] at hlog
    refine ⟨_, scanEvents p.1 ++ publishEvents p.1 (cleanOf p.1),
      processBranch_logFail env p s hlog, by simp [List.append_assoc], ?_⟩
    intro e he
    rcases List.mem_append.mp he with he | he
    · exact mem_scanEvents he
    · exact Or.inl (mem_publishEvents he)


/-- The loop over configured pairs: never raises, only appends, and the
appended events are `run_cmd` events or the log query of some
configured branch. -/
theorem repairLoop_cases (env : Env) (configs : List (String × String)) :
    ∀ s : DriverState, ∃ s' tail, repairLoop env configs s = .ok s' ∧
      s'.trace = s.trace ++ tail ∧
      ∀ e ∈ tail, e.limit = some 30 ∨
        (e.limit = none ∧ ∃ p ∈ configs, e.cmd = cmdLog p.1) := by
  induction configs with
  | nil =>
    intro s
    exact ⟨s, [], rfl, by simp, by simp⟩
  | cons p ps ih =>
    intro s
    obtain ⟨s1, t1, h1, ht1, he1⟩ := processBranch_cases env p s
    obtain ⟨s2, t2, h2, ht2, he2⟩ := ih s1
    refine ⟨s2, t1 ++ t2, ?_, ?_, ?_⟩
    · simp [repairLoop, h1, h2]
    · rw [ht2, ht1, List.append_assoc]
    · intro e he
      rcases List.mem_append.mp he with h | h
      · rcases he1 e h with h | ⟨hl, hc⟩
        · exact Or.inl h
        · exact Or.inr ⟨hl, p, List.mem_cons_self _ _, hc⟩
      · rcases he2 e h with h | ⟨hl, q, hq, hc⟩
        · exact Or.inl h
        · exact Or.inr ⟨hl, q, List.mem_cons_of_mem _ hq, hc⟩

/-- The whole driver: normal completion with exit status 0, the trace
opening with `git checkout main`, and every later event carrying the
30-unit timeout except the per-branch log queries. -/
theorem mainDriver_cases (env : Env) (configs : List (String × String)) :
    ∃ s tail, mainDriver env configs = .ok (s, 0) ∧
      s.trace = evt cmdCheckoutMain :: tail ∧
      ∀ e ∈ tail, e.limit = some 30 ∨
        (e.limit = none ∧ ∃ p ∈ configs, e.cmd = cmdLog p.1) := by
  obtain ⟨s', tail, h, ht, he⟩ := repairLoop_cases env configs ⟨1, [evt cmdCheckoutMain]⟩
  refine ⟨s', tail, ?_, ?_, he⟩
  · simp only [mainDriver, runCmd]
    have h' : repairLoop env configs
        ⟨(⟨0, []⟩ : DriverState).idx + 1,
         (⟨0, []⟩ : DriverState).trace ++ [⟨cmdCheckoutMain, some 30⟩]⟩ = .ok s' := h
    rw [h']
  · rw [ht]
    rfl

/-! ### Claim theorems -/

/-- Claim C1, counterexample: the claim tests the keywords against the
SUBJECT text, but the code tests them against the whole log line, so a
line whose hash token contains `add` is selected by the code even
though its subject matches no keyword. -/
theorem selectorSubjectRuleRefuted :
    selectCommit ["fadd567 chore: noop"] = .ok (some "fadd567") ∧
    specSubjectSelect ["fadd567 chore: noop"] = none := by
  exact ⟨by decide, by decide⟩

/-- Claim C1 (amended): for every log window of at most 10 lines, the
commit the driver selects is the hash token of the first line whose
FULL text (hash and subject) contains one of the keywords `test`,
`feat:`, `add` case-insensitively and contains neither `cargo.lock`
nor `format` case-insensitively; in particular a window with the
spec's two example lines selects `abc1234` and never `def5678`,
whatever their order. -/
theorem selectorFollowsLineRule (commits : List String)
    (h : commits.length ≤ 10) :
    selectCommit commits = .ok (specLineSelect commits) ∧
    selectCommit ["abc1234 feat: add integration tests",
      "def5678 chore: bump Cargo.lock"] = .ok (some "abc1234") ∧
    selectCommit ["def5678 chore: bump Cargo.lock",
      "abc1234 feat: add integration tests"] = .ok (some "abc1234") := by
  clear h
  refine ⟨?_, by decide, by decide⟩
  induction commits with
  | nil => rfl
  | cons line rest ih =>
    by_cases hc : (keywordMatch line && !excludedMatch line) = true
    · have hkw : keywordMatch line = true := by
        simp only [Bool.and_eq_true] at hc
        exact hc.1
      obtain ⟨t, ht⟩ : ∃ t, (pyTokens line).head? = some t := by
        cases htl : pyTokens line with
        | nil => exact absurd htl (pyTokens_ne_nil hkw)
        | cons a as => exact ⟨a, rfl⟩
      simp [selectCommit, specLineSelect, hc, ht]
    · simp only [selectCommit, specLineSelect, hc, Bool.false_eq_true, if_false]
      exact ih

/-- Witness for C1 at a concrete one-line window. -/
theorem selectorFollowsLineRule_witness :
    (["x add y"] : List String).length ≤ 10 ∧
    selectCommit ["x add y"] = .ok (specLineSelect ["x add y"]) :=
  ⟨by decide, (selectorFollowsLineRule ["x add y"] (by decide)).1⟩

/-- Claim C2: when the log query itself returns non-zero, the driver
skips commit selection and cherry-pick entirely but still issues the
checkout of the original branch, the hard reset to the clean branch,
the force-push, and the cleanup — the trace is exactly the three scan
events followed by the five publish events, with no cherry-pick. -/
theorem logFailureStillPublishes (env : Env) (p : String × String) (s : DriverState)
    (hlog : ((env (s.idx + 2)).returncode == 0) = false) :
    processBranch env p s =
      .ok ⟨s.idx + 8, s.trace ++ scanEvents p.1 ++ publishEvents p.1 (cleanOf p.1)⟩ :=
  processBranch_logFail env p s hlog

/-- Witness for C2 on the all-failing environment. -/
theorem logFailureStillPublishes_witness :
    ((envFail 2).returncode == 0) = false ∧
    processBranch envFail ("b", "c") ⟨0, []⟩ =
      .ok ⟨8, scanEvents "b" ++ publishEvents "b" (cleanOf "b")⟩ :=
  ⟨by decide, by
    have h := logFailureStillPublishes envFail ("b", "c") ⟨0, []⟩ (by decide)
    simpa using h⟩

/-- Claim C3: a failing cherry-pick triggers exactly the fixed
resolution policy — take the incoming Cargo.lock, stage it, run the
cherry-pick continuation; a successful continuation proceeds to the
publish phase, a failing one aborts the pick and abandons the branch
with no reset and no push. -/
theorem conflictResolutionPolicy (env : Env) (p : String × String) (s : DriverState)
    (t : String)
    (hlog : ((env (s.idx + 2)).returncode == 0) = true)
    (hsel : selectCommit (pyStripSplit (env (s.idx + 2)).stdout) = Except.ok (some t))
    (hpick : cmdOk (env (s.idx + 3)) = false) :
    processBranch env p s = .ok (if cmdOk (env (s.idx + 6)) then
      ⟨s.idx + 12, s.trace ++ scanEvents p.1 ++
        [evt (cmdCherryPick t), evt cmdTheirs, evt cmdAddLock, evt cmdPickContinue] ++
        publishEvents p.1 (cleanOf p.1)⟩
    else
      ⟨s.idx + 8, s.trace ++ scanEvents p.1 ++
        [evt (cmdCherryPick t), evt cmdTheirs, evt cmdAddLock, evt cmdPickContinue,
         evt cmdPickAbort]⟩) :=
  processBranch_conflict env p s t hlog hsel hpick

/-- Witness for C3: the pick fails, the continuation succeeds. -/
theorem conflictResolutionPolicy_witness :
    cmdOk (envC3 3) = false ∧
    processBranch envC3 ("b", "c") ⟨0, []⟩ =
      .ok ⟨12, scanEvents "b" ++
        [evt (cmdCherryPick "feat:"), evt cmdTheirs, evt cmdAddLock, evt cmdPickContinue] ++
        publishEvents "b" (cleanOf "b")⟩ :=
  ⟨by decide, by
    have h := conflictResolutionPolicy envC3 ("b", "c") ⟨0, []⟩ "feat:"
      (by decide) (by decide) (by decide)
    have hc : cmdOk (envC3 6) = true := by decide
    rw [hc] at h
    simpa using h⟩

/-- Claim C4: a successful log query whose window matches no line
abandons the branch after the three scan events: no cherry-pick, no
push, and no deletion of the now-orphaned clean branch. -/
theorem selectionFailureAbandons (env : Env) (p : String × String) (s : DriverState)
    (hlog : ((env (s.idx + 2)).returncode == 0) = true)
    (hsel : selectCommit (pyStripSplit (env (s.idx + 2)).stdout) = Except.ok none) :
    processBranch env p s = .ok ⟨s.idx + 3, s.trace ++ scanEvents p.1⟩ :=
  processBranch_selNone env p s hlog hsel

/-- Witness for C4 on a window with no matching line. -/
theorem selectionFailureAbandons_witness :
    ((envNoMatch 2).returncode == 0) = true ∧
    selectCommit (pyStripSplit (envNoMatch 2).stdout) = Except.ok none ∧
    processBranch envNoMatch ("b", "c") ⟨0, []⟩ = .ok ⟨3, scanEvents "b"⟩ :=
  ⟨by decide, by decide, by
    have h := selectionFailureAbandons envNoMatch ("b", "c") ⟨0, []⟩ (by decide) (by decide)
    simpa using h⟩

/-- Claim C5, counterexample: when the first branch is abandoned (its
log window matches nothing), no checkout-main is issued between the
end of the first branch's commands (index 3) and the first command
operating on the second branch (index 4): the full trace is computed
explicitly, and no checkout-main occurs at index 4 or later. -/
theorem checkoutMainClaimRefuted :
    traceOf (mainDriver envNoMatch [("alpha", "x"), ("beta", "y")]) =
      [evt cmdCheckoutMain,
       evt (cmdDeleteCleanQuiet "alpha-clean"), evt (cmdCheckoutNew "alpha-clean"),
       evtDirect (cmdLog "alpha"),
       evt (cmdDeleteCleanQuiet "beta-clean"), evt (cmdCheckoutNew "beta-clean"),
       evtDirect (cmdLog "beta")] ∧
    ((traceOf (mainDriver envNoMatch [("alpha", "x"), ("beta", "y")])).drop 4).all
      (fun e => !(e.cmd == cmdCheckoutMain)) = true := by
  exact ⟨by decide, by decide⟩

/-- Claim C5 (amended): a checkout-main is issued before any branch
command (it is the first command of every run), and after each branch
whose iteration reaches the publish phase the last command of that
iteration is checkout-main, so one precedes the next branch's
commands; a branch abandoned by selection failure or by a failed
resolution gets no such checkout before its successor. -/
theorem checkoutMainAmended (env : Env) (configs : List (String × String))
    (p : String × String) (s : DriverState) :
    (traceOf (mainDriver env configs)).head? = some (evt cmdCheckoutMain) ∧
    (reachesPublish env s.idx = true →
      ∃ s' pre, processBranch env p s = .ok s' ∧
        s'.trace = pre ++ [evt cmdCheckoutMain]) := by
  constructor
  · obtain ⟨s', tail, h, ht, _⟩ := mainDriver_cases env configs
    simp [traceOf, h, ht]
  · intro hr
    unfold reachesPublish at hr
    by_cases hlog : ((env (s.idx + 2)).returncode == 0) = true
    · rw [hlog] at hr
      simp only [if_true] at hr
      obtain ⟨o, ho⟩ := selectCommit_ok (pyStripSplit (env (s.idx + 2)).stdout)
      rw [ho] at hr
      cases o with
      | none => simp at hr
      | some t =>
        simp only [Bool.or_eq_true] at hr
        by_cases hpick : cmdOk (env (s.idx + 3)) = true
        · refine ⟨_, s.trace ++ scanEvents p.1 ++ [evt (cmdCherryPick t)] ++
            [evt (cmdCheckoutBranch p.1), evt (cmdResetHard (cleanOf p.1)),
             evt (cmdPush p.1), evt (cmdDeleteClean (cleanOf p.1))],
            processBranch_pickOk env p s t hlog ho hpick, ?_⟩
          simp [publishEvents, List.append_assoc]
        · simp only [Bool.not_eq_true] at hpick
          have hcont : cmdOk (env (s.idx + 6)) = true := by
            rcases hr with hr | hr
            · rw [hpick] at hr
              exact absurd hr (by simp)
            · exact hr
          have h := processBranch_conflict env p s t hlog ho hpick
          rw [hcont] at h
          simp only [if_true] at h
          refine ⟨_, s.trace ++ scanEvents p.1 ++
            [evt (cmdCherryPick t), evt cmdTheirs, evt cmdAddLock, evt cmdPickContinue] ++
            [evt (cmdCheckoutBranch p.1), evt (cmdResetHard (cleanOf p.1)),
             evt (cmdPush p.1), evt (cmdDeleteClean (cleanOf p.1))], h, ?_⟩
          simp [publishEvents, List.append_assoc]
    · simp only [Bool.not_eq_true] at hlog
      refine ⟨_, s.trace ++ scanEvents p.1 ++
        [evt (cmdCheckoutBranch p.1), evt (cmdResetHard (cleanOf p.1)),
         evt (cmdPush p.1), evt (cmdDeleteClean (cleanOf p.1))],
        processBranch_logFail env p s hlog, ?_⟩
      simp [publishEvents, List.append_assoc]

/-- Witness for C5 (amended). -/
theorem checkoutMainAmended_witness :
    reachesPublish envAllOk 0 = true ∧
    (traceOf (mainDriver envAllOk [("b", "x")])).head? = some (evt cmdCheckoutMain) ∧
    (∃ s' pre, processBranch envAllOk ("b", "x") ⟨0, []⟩ = .ok s' ∧
      s'.trace = pre ++ [evt cmdCheckoutMain]) :=
  ⟨by decide, (checkoutMainAmended envAllOk [("b", "x")] ("b", "x") ⟨0, []⟩).1,
    (checkoutMainAmended envAllOk [("b", "x")] ("b", "x") ⟨0, []⟩).2 (by decide)⟩

/-- Claim C6, counterexample: the log query is issued with no timeout
at all, so not every external command carries the 30-unit timeout. -/
theorem timeoutClaimRefuted :
    evtDirect (cmdLog "alpha") ∈ traceOf (mainDriver envNoMatch [("alpha", "x")]) ∧
    (evtDirect (cmdLog "alpha")).limit = none ∧
    (traceOf (mainDriver envNoMatch [("alpha", "x")])).any
      (fun e => e.limit.isNone) = true := by
  exact ⟨by decide, by decide, by decide⟩

/-- Claim C6 (amended): every command issued through `run_cmd` carries
the 30-unit timeout — the only exception in any trace is the per-branch
log query, which is issued with no timeout — and in `run_cmd` a timeout
expiry yields the same failure outcome (False) as a non-zero exit. -/
theorem timeoutPolicyAmended (env : Env) (configs : List (String × String)) :
    (∀ e ∈ traceOf (mainDriver env configs),
        e.limit = some 30 ∨ (e.limit = none ∧ ∃ p ∈ configs, e.cmd = cmdLog p.1)) ∧
    (∀ o : CmdOutcome, 30 < o.runtime → cmdOk o = false) ∧
    (∀ o : CmdOutcome, o.runtime ≤ 30 → o.returncode ≠ 0 → cmdOk o = false) := by
  refine ⟨?_, ?_, ?_⟩
  · obtain ⟨s', tail, h, ht, he⟩ := mainDriver_cases env configs
    intro e hme
    simp only [traceOf, h, ht] at hme
    rcases List.mem_cons.mp hme with rfl | hme
    · exact Or.inl rfl
    · exact he e hme
  · intro o ho
    simp [cmdOk, ho]
  · intro o h1 h2
    have hn : ¬ 30 < o.runtime := by omega
    simp only [cmdOk, if_neg hn, beq_eq_false_iff_ne, ne_eq]
    exact h2

/-- Witness for C6 (amended), at the opening checkout-main event. -/
theorem timeoutPolicyAmended_witness :
    (evt cmdCheckoutMain).limit = some 30 ∨
      ((evt cmdCheckoutMain).limit = none ∧
        ∃ p ∈ ([] : List (String × String)), (evt cmdCheckoutMain).cmd = cmdLog p.1) :=
  (timeoutPolicyAmended envAllOk []).1 (evt cmdCheckoutMain) (by decide)

/-- Claim C7: when the replay step succeeds — the cherry-pick outright,
or the lockfile resolution plus continuation — the driver issues, in
order: checkout of the original branch, hard reset to the clean
branch, force-push, deletion of the local clean branch, and checkout
of main, before the next configured pair. -/
theorem replaySuccessPublishes (env : Env) (p : String × String) (s : DriverState)
    (t : String)
    (hlog : ((env (s.idx + 2)).returncode == 0) = true)
    (hsel : selectCommit (pyStripSplit (env (s.idx + 2)).stdout) = Except.ok (some t)) :
    (cmdOk (env (s.idx + 3)) = true →
      processBranch env p s = .ok ⟨s.idx + 9, s.trace ++ scanEvents p.1 ++
        [evt (cmdCherryPick t)] ++ publishEvents p.1 (cleanOf p.1)⟩) ∧
    (cmdOk (env (s.idx + 3)) = false → cmdOk (env (s.idx + 6)) = true →
      processBranch env p s = .ok ⟨s.idx + 12, s.trace ++ scanEvents p.1 ++
        [evt (cmdCherryPick t), evt cmdTheirs, evt cmdAddLock, evt cmdPickContinue] ++
        publishEvents p.1 (cleanOf p.1)⟩) := by
  constructor
  · intro hpick
    exact processBranch_pickOk env p s t hlog hsel hpick
  · intro hpick hcont
    have h := processBranch_conflict env p s t hlog hsel hpick
    rw [hcont] at h
    simpa using h

/-- Witness for C7. -/
theorem replaySuccessPublishes_witness :
    cmdOk (envAllOk 3) = true ∧
    processBranch envAllOk ("b", "x") ⟨0, []⟩ =
      .ok ⟨9, scanEvents "b" ++ [evt (cmdCherryPick "feat:")] ++
        publishEvents "b" (cleanOf "b")⟩ :=
  ⟨by decide, by
    have h := (replaySuccessPublishes envAllOk ("b", "x") ⟨0, []⟩ "feat:"
      (by decide) (by decide)).1 (by decide)
    simpa using h⟩

/-- The loop result depends only on the branch-name halves of the
configured pairs. -/
theorem repairLoop_fst (env : Env) :
    ∀ (c1 c2 : List (String × String)), c1.map Prod.fst = c2.map Prod.fst →
      ∀ s, repairLoop env c1 s = repairLoop env c2 s := by
  intro c1
  induction c1 with
  | nil =>
    intro c2 h s
    cases c2 with
    | nil => rfl
    | cons q qs => simp at h
  | cons p ps ih =>
    intro c2 h s
    cases c2 with
    | nil => simp at h
    | cons q qs =>
      simp only [List.map_cons, List.cons.injEq] at h
      have hpq : processBranch env p s = processBranch env q s := by
        obtain ⟨a, b⟩ := p
        obtain ⟨a', b'⟩ := q
        have hb : a = a' := h.1
        subst hb
        rfl
      simp only [repairLoop]
      rw [hpq]
      cases hq : processBranch env q s with
      | error e => rfl
      | ok s' => exact ih qs h.2 s'

/-- Claim C8: the driver's behaviour is independent of the seed-commit
halves of the configured pairs — two configurations with the same
branch names produce identical runs (same commands, same outcomes). -/
theorem seedCommitsIrrelevant (env : Env) (c1 c2 : List (String × String))
    (h : c1.map Prod.fst = c2.map Prod.fst) :
    mainDriver env c1 = mainDriver env c2 := by
  simp only [mainDriver, runCmd]
  rw [repairLoop_fst env c1 c2 h]

/-- Witness for C8: same branch name, different seed commits. -/
theorem seedCommitsIrrelevant_witness :
    ([("b", "s1")] : List (String × String)).map Prod.fst =
      ([("b", "s2")] : List (String × String)).map Prod.fst ∧
    mainDriver envAllOk [("b", "s1")] = mainDriver envAllOk [("b", "s2")] :=
  ⟨by decide, seedCommitsIrrelevant envAllOk [("b", "s1")] [("b", "s2")] (by decide)⟩

/-- Claim C9: for every environment of per-command outcomes the entry
point completes normally and the process exit status is 0; no failure
propagates as an exception or a non-zero exit code. -/
theorem driverAlwaysExitsZero (env : Env) (configs : List (String × String)) :
    exitCode (mainDriver env configs) = 0 ∧
    ∃ s, mainDriver env configs = .ok (s, 0) := by
  obtain ⟨s, tail, h, _, _⟩ := mainDriver_cases env configs
  exact ⟨by simp [exitCode, h], s, h⟩

/-- Claim C10: a line matching the keyword rule is non-empty, so its
token list is non-empty and extracting the first token never raises;
the selection loop never raises on any window, and an empty log output
selects no commit rather than erroring. -/
theorem selectionNeverRaises :
    (∀ line, keywordMatch line = true → pyTokens line ≠ []) ∧
    (∀ commits, ∃ o, selectCommit commits = Except.ok o) ∧
    selectCommit (pyStripSplit "") = Except.ok none := by
  exact ⟨fun line h => pyTokens_ne_nil h, selectCommit_ok, by decide⟩

/-- Witness for C10. -/
theorem selectionNeverRaises_witness :
    keywordMatch "add tests" = true ∧ pyTokens "add tests" ≠ [] :=
  ⟨by decide, selectionNeverRaises.1 "add tests" (by decide)⟩

end FinishRemainingPRs
